import Mathlib

/-!
Verification of the RFID door-access firmware (entry/exit scanners and the
solenoid door controller) against its natural-language specification.

The definitions below are shallow embeddings of the Arduino sources:
`esp32_solenoidal_controller.ino` (door actuator state machine),
`esp8266_entry_oled.ino` / `esp32_exit_oled.ino` / `esp8266_rfid_entry.ino`
(credential reader, server locator, scan submitter).  `unsigned long`
(millis) arithmetic is modelled over `Nat` with explicit wraparound at
2^32; Arduino `String` operations are modelled over Lean `String`.
-/

/-- Modulus of the 32-bit `unsigned long` used by `millis()` arithmetic. -/
def U32 : Nat := 4294967296

/-- Wrapping 32-bit subtraction, as in `currentTime - startTime` on
`unsigned long` operands (both assumed < 2^32). -/
def usub (a b : Nat) : Nat := (a + U32 - b) % U32

/-! ### Arduino String operations -/

/-- Arduino `String::toUpperCase` (ASCII). -/
def strUpper (s : String) : String := String.mk (s.data.map Char.toUpper)

/-- Characters treated as whitespace by Arduino `String::trim` (isspace). -/
def isWhitespaceByte (c : Char) : Bool := c == ' ' || (9 ≤ c.toNat && c.toNat ≤ 13)

/-- Arduino `String::trim`: strips leading and trailing whitespace. -/
def strTrim (s : String) : String :=
  String.mk (((s.data.dropWhile isWhitespaceByte).reverse.dropWhile isWhitespaceByte).reverse)

/-- Search for `pat` in `hay` starting at the current position; returns the
offset from the starting position, or `none`. -/
def findSub : List Char → List Char → Option Nat
  | [], pat => if pat = [] then some 0 else none
  | c :: rest, pat =>
    if pat.isPrefixOf (c :: rest) then some 0
    else match findSub rest pat with
      | some k => some (k + 1)
      | none => none

/-- Arduino `String::indexOf(substr, from)`: index of the first occurrence of
`pat` at or after position `start`, or `-1`. -/
def strIndexOfFrom (s pat : String) (start : Nat) : Int :=
  match findSub (s.data.drop start) pat.data with
  | some k => Int.ofNat (start + k)
  | none => -1

/-- Arduino `String::indexOf(substr)`. -/
def strIndexOf (s pat : String) : Int := strIndexOfFrom s pat 0

/-- Arduino `String::substring(from, to)`: characters in `[a, b)`. -/
def strSubstring (s : String) (a b : Nat) : String :=
  String.mk ((s.data.drop a).take (b - a))

/-! ### Door actuator state machine (`esp32_solenoidal_controller.ino`)

Globals of the sketch: `doorOpen`, `doorOpenStartTime`, `lastOperation`,
the relay output pin (GPIO23, LOW = unlocked) and the statistics counters.
-/

/-- `#define DOOR_OPEN_TIME 5000` — 5 seconds door open time. -/
def DOOR_OPEN_TIME : Nat := 5000

structure DoorState where
  doorOpen : Bool
  doorOpenStartTime : Nat
  lastOperation : String
  /-- `relayLow = true` means the relay pin is driven LOW (solenoid unlocked). -/
  relayLow : Bool
  entryCount : Nat
  exitCount : Nat
  manualOperations : Nat
  totalOperations : Nat
deriving Repr, DecidableEq

/-- Globals at power-on: `doorOpen = false`, counters zero, `lastOperation`
empty; the relay pin has not been written yet. -/
def bootState : DoorState :=
  { doorOpen := false, doorOpenStartTime := 0, lastOperation := "",
    relayLow := false, entryCount := 0, exitCount := 0,
    manualOperations := 0, totalOperations := 0 }

/-- `openDoor(String operation)`: drives the relay LOW, records the state,
updates the statistics (`entry` / `exit` / otherwise manual). -/
def openDoor (operation : String) (now : Nat) (s : DoorState) : DoorState :=
  let s1 := { s with
    relayLow := true, doorOpen := true,
    doorOpenStartTime := now, lastOperation := operation,
    totalOperations := s.totalOperations + 1 }
  if operation == "entry" then { s1 with entryCount := s1.entryCount + 1 }
  else if operation == "exit" then { s1 with exitCount := s1.exitCount + 1 }
  else { s1 with manualOperations := s1.manualOperations + 1 }

/-- `closeDoor()`: drives the relay HIGH and clears `doorOpen`. -/
def closeDoor (s : DoorState) : DoorState :=
  { s with relayLow := false, doorOpen := false }

/-- `updateDoorStatus()`: auto-close once `currentTime - doorOpenStartTime`
reaches `DOOR_OPEN_TIME`. -/
def updateDoorStatus (now : Nat) (s : DoorState) : DoorState :=
  if s.doorOpen then
    if usub now s.doorOpenStartTime ≥ DOOR_OPEN_TIME then closeDoor s else s
  else s

/-- `setupHardware()` ends with `closeDoor()`: the door starts closed. -/
def initDoorState : DoorState := closeDoor bootState

/-- An HTTP command arriving at the controller: `/unlock_entry`,
`/unlock_exit` (and, via the web UI, any other reason string) call
`openDoor`; `/lock` calls `closeDoor`. -/
inductive DoorCmd where
  | unlock (reason : String)
  | lock
deriving Repr, DecidableEq

def DoorCmd.isUnlockCmd : DoorCmd → Bool
  | .unlock _ => true
  | .lock => false

def handleCmd (now : Nat) (s : DoorState) (c : DoorCmd) : DoorState :=
  match c with
  | .unlock r => openDoor r now s
  | .lock => closeDoor s

/-- One iteration of `loop()` at time `t.1`: `server.handleClient()`
processes the pending commands `t.2`, then `updateDoorStatus()` runs. -/
def doorTick (s : DoorState) (t : Nat × List DoorCmd) : DoorState :=
  updateDoorStatus t.1 (t.2.foldl (handleCmd t.1) s)

/-- Run of the control loop over a sequence of ticks, from the initial
(closed) state. -/
def runDoor (ts : List (Nat × List DoorCmd)) : DoorState :=
  ts.foldl doorTick initDoorState

/-- Time of the most recent tick that carried an unlock command. -/
def lastUnlockFrom (lu : Option Nat) (ts : List (Nat × List DoorCmd)) : Option Nat :=
  ts.foldl (fun acc t => if t.2.any DoorCmd.isUnlockCmd then some t.1 else acc) lu

def lastUnlockTime (ts : List (Nat × List DoorCmd)) : Option Nat :=
  lastUnlockFrom none ts

/-- Time of the last tick of the run (`u` if there is none). -/
def endTimeFrom (u : Nat) (ts : List (Nat × List DoorCmd)) : Nat :=
  ts.foldl (fun _ t => t.1) u

/-- States reachable through the controller's own transition functions;
`openDoor` and `closeDoor` are the only writers of the door state and of
the relay output in the sketch (`updateDoorStatus` writes only through
`closeDoor`). -/
inductive ReachableDoor : DoorState → Prop where
  | init : ReachableDoor initDoorState
  | stepOpen (r : String) (now : Nat) {s : DoorState} :
      ReachableDoor s → ReachableDoor (openDoor r now s)
  | stepClose {s : DoorState} : ReachableDoor s → ReachableDoor (closeDoor s)
  | stepTick (now : Nat) {s : DoorState} :
      ReachableDoor s → ReachableDoor (updateDoorStatus now s)

/-! ### Credential reader with debounce
(`esp8266_entry_oled.ino` / `esp32_exit_oled.ino` loop, serial reader variant;
`esp8266_rfid_entry.ino` for the MFRC522 variant's UID construction)
-/

/-- `const unsigned long SCAN_DELAY = 2000` — global minimum inter-scan gap. -/
def SCAN_DELAY : Nat := 2000

/-- Literal `5000` in the same-card check of `loop()`. -/
def SAME_CARD_WINDOW : Nat := 5000

structure ReaderState where
  lastRFID : String
  lastScanTime : Nat
deriving Repr, DecidableEq

/-- Globals at power-on: `lastRFID = ""`, `lastScanTime = 0`. -/
def initReaderState : ReaderState := { lastRFID := "", lastScanTime := 0 }

/-- One serial line arriving in `loop()` at time `now`: trim, skip empty
lines, suppress when within `SCAN_DELAY` of the last accepted scan, suppress
a repeat of `lastRFID` within 5000 ms of the last accepted scan; otherwise
record the scan and emit it (send it to the server).  Returns the updated
state and whether a `ScanEvent` was emitted. -/
def processRead (s : ReaderState) (raw : String) (now : Nat) : ReaderState × Bool :=
  let rfidUID := strTrim raw
  if rfidUID.length > 0 then
    if usub now s.lastScanTime < SCAN_DELAY then (s, false)
    else if rfidUID == s.lastRFID && usub now s.lastScanTime < SAME_CARD_WINDOW then
      (s, false)
    else ({ lastRFID := rfidUID, lastScanTime := now }, true)
  else (s, false)

/-- Fold step accumulating the emitted scan events. -/
def readerStep (acc : ReaderState × List (String × Nat)) (r : String × Nat) :
    ReaderState × List (String × Nat) :=
  let p := processRead acc.1 r.1 r.2
  (p.1, if p.2 then acc.2 ++ [(strTrim r.1, r.2)] else acc.2)

/-- Run the reader loop over a timed sequence of raw serial lines; returns
the final state and the list of emitted scan events in order. -/
def runReader (reads : List (String × Nat)) : ReaderState × List (String × Nat) :=
  reads.foldl readerStep (initReaderState, [])

/-- Digit character of `String(value, HEX)` (lowercase). -/
def hexDigitChar (n : Nat) : Char :=
  if n < 10 then Char.ofNat (48 + n) else Char.ofNat (87 + n)

/-- Arduino `String(b, HEX)` for a byte value `b < 256`: one or two lowercase
hex digits, no zero padding. -/
def byteToHexChars (b : Nat) : List Char :=
  if b < 16 then [hexDigitChar b] else [hexDigitChar (b / 16), hexDigitChar (b % 16)]

/-- UID string built by the MFRC522 loop of `esp8266_rfid_entry.ino`:
`rfidUID += String(mfrc522.uid.uidByte[i], HEX)` over all UID bytes. -/
def buildRfidUID (bytes : List Nat) : String :=
  String.mk ((bytes.map byteToHexChars).flatten)

/-- The credential after `rfidUID.toUpperCase()` in the MFRC522 variant. -/
def scannedUID (bytes : List Nat) : String := strUpper (buildRfidUID bytes)

/-- Uppercase hexadecimal digit, the alphabet the spec requires of a
normalized credential. -/
def isUpperHexDigit (c : Char) : Bool :=
  (48 ≤ c.toNat && c.toNat ≤ 57) || (65 ≤ c.toNat && c.toNat ≤ 70)

/-! ### Server locator (`esp32_exit_oled.ino`: `discoverPiByMAC`,
`testPythonServer`, `verifyPiIdentity`; `esp8266_entry_oled.ino` for the
entry variant that probes the port only) -/

/-- `const char* raspberryPiMAC` — the configured server identity. -/
def raspberryPiMAC : String := "D8:3A:DD:78:01:07"

/-- Observable behaviour of one candidate host: whether a TCP connection to
port 5000 succeeds, and the HTTP status/body answered on
`/api/device/info` and on `/` (a code ≤ 0 models a failed request). -/
structure HostResp where
  acceptsTcp : Bool
  infoCode : Int
  infoBody : String
  rootCode : Int
  rootBody : String
deriving Repr

/-- `testPythonServer(ip)`: a bounded-timeout TCP connect to port 5000. -/
def testPythonServer (h : HostResp) : Bool := h.acceptsTcp

/-- MAC-address extraction of `verifyPiIdentity` (lines 182–203): requires
the `device_type` marker, then takes the quoted string after
`"mac_address":"`; any failure yields `none` (the code then falls through
to the fallback). -/
def extractDeviceMAC (response : String) : Option String :=
  if strIndexOf response "\"device_type\":\"Raspberry Pi\"" != -1 then
    let macStart : Int := strIndexOf response "\"mac_address\":\"" + 15
    if macStart > 14 then
      let macEnd : Int := strIndexOfFrom response "\"" macStart.toNat
      if macEnd > macStart then
        some (strSubstring response macStart.toNat macEnd.toNat)
      else none
    else none
  else none

/-- Fallback branch of `verifyPiIdentity` (lines 209–225): accept when the
root page answers at all and mentions "RFID Entry System" or
"Flask Server" — no identity comparison happens here. -/
def verifyFallback (h : HostResp) : Bool :=
  h.rootCode > 0 &&
    (strIndexOf h.rootBody "RFID Entry System" != -1 ||
     strIndexOf h.rootBody "Flask Server" != -1)

/-- `verifyPiIdentity(ip)`: on a 200 from `/api/device/info` with a parsable
MAC, compare it case-insensitively against `raspberryPiMAC` and return the
result; every other path falls through to the content fallback. -/
def verifyPiIdentity (h : HostResp) : Bool :=
  if h.infoCode == 200 then
    match extractDeviceMAC h.infoBody with
    | some deviceMAC => strUpper deviceMAC == strUpper raspberryPiMAC
    | none => verifyFallback h
  else verifyFallback h

/-- The spec's notion of a verified identity binding: the device-info
endpoint was answered with 200 and the reported MAC equals the configured
one after case normalization. -/
def verifiedIdentityMatches (h : HostResp) : Bool :=
  h.infoCode == 200 &&
    (match extractDeviceMAC h.infoBody with
     | some deviceMAC => strUpper deviceMAC == strUpper raspberryPiMAC
     | none => false)

/-- The `for (int i = 1; i <= 254; i++)` loop of `discoverPiByMAC` in the
exit scanner, starting at candidate `i` with `fuel` iterations left:
skip the node's own address, probe the port, verify, return the first
match.  Also returns, in order, the candidates actually probed with
`testPythonServer`. -/
def discoverFrom (hosts : Nat → HostResp) (own : Nat) : Nat → Nat → Option Nat × List Nat
  | _, 0 => (none, [])
  | i, fuel + 1 =>
    if i == own then discoverFrom hosts own (i + 1) fuel
    else if testPythonServer (hosts i) && verifyPiIdentity (hosts i) then (some i, [i])
    else
      let r := discoverFrom hosts own (i + 1) fuel
      (r.1, i :: r.2)

/-- `discoverPiByMAC()` of the exit scanner: scan candidates 1..254. -/
def discoverPiByMAC (hosts : Nat → HostResp) (own : Nat) : Option Nat × List Nat :=
  discoverFrom hosts own 1 254

/-- The entry scanner's `discoverPiByMAC()` (`esp8266_entry_oled.ino`
lines 66–90): same loop but the candidate is accepted on the TCP probe
alone — `verifyPiIdentity` does not exist in that sketch. -/
def discoverFromEntry (hosts : Nat → HostResp) (own : Nat) : Nat → Nat → Option Nat
  | _, 0 => none
  | i, fuel + 1 =>
    if i == own then discoverFromEntry hosts own (i + 1) fuel
    else if testPythonServer (hosts i) then some i
    else discoverFromEntry hosts own (i + 1) fuel

def discoverPiByMACEntry (hosts : Nat → HostResp) (own : Nat) : Option Nat :=
  discoverFromEntry hosts own 1 254

/-! ### Scan submitter (`esp8266_entry_oled.ino`: `sendRFIDToPython`) -/

structure SubmitterState where
  piFound : Bool
  pythonServerIP : String
deriving Repr, DecidableEq

set_option linter.unusedVariables false in
/-- `sendRFIDToPython(rfidUID)`: bail out (no request) when the location is
not held; otherwise perform exactly one POST.  `httpResult` models the
return of `http.POST` — positive is an HTTP status, `≤ 0` is the library's
error code for a connection failure or timeout, upon which `piFound` is
cleared.  Returns the new state and the number of requests sent. -/
def sendRFIDToPython (st : SubmitterState) (rfidUID : String) (httpResult : Int) :
    SubmitterState × Nat :=
  if !st.piFound || st.pythonServerIP.length == 0 then (st, 0)
  else if httpResult > 0 then (st, 1)
  else ({ st with piFound := false }, 1)

/-- Re-discovery gate in `loop()`: discovery is attempted only while
`piFound` is false and `DISCOVERY_INTERVAL` (30 s) has passed. -/
def shouldRediscover (piFound : Bool) (now lastAttempt : Nat) : Bool :=
  !piFound && decide (usub now lastAttempt > 30000)

/-! ### Invariants and concrete test inputs -/

/-- Door-loop invariant tying the state after a tick at time `u` to the time
`lu` of the most recent unlock command (for unlock-only traces). -/
def DoorInv (s : DoorState) (lu : Option Nat) (u : Nat) : Prop :=
  match lu with
  | none => s.doorOpen = false
  | some t0 =>
      s.doorOpenStartTime = t0 ∧ (s.doorOpen = true ↔ usub u t0 < DOOR_OPEN_TIME)

/-- Reader-loop invariant: the debounce globals hold exactly the credential
and timestamp of the most recent emitted scan event. -/
def ReaderInv (s : ReaderState) (evs : List (String × Nat)) : Prop :=
  match evs.getLast? with
  | none => s = initReaderState
  | some e => s.lastRFID = e.1 ∧ s.lastScanTime = e.2

/-- Relation guaranteed between consecutive emitted scan events: at least
the global inter-scan gap apart, and additionally at least the same-card
window apart when they carry the same credential. -/
def evRel (a b : String × Nat) : Prop :=
  SCAN_DELAY ≤ b.2 - a.2 ∧ (a.1 = b.1 → SAME_CARD_WINDOW ≤ b.2 - a.2)

/-- A host that answers the device-info endpoint with the configured Pi MAC
(reported lowercase, to exercise the case-insensitive comparison). -/
def goodHost : HostResp :=
  { acceptsTcp := true, infoCode := 200,
    infoBody := "\"device_type\":\"Raspberry Pi\",\"mac_address\":\"d8:3a:dd:78:01:07\"",
    rootCode := 200, rootBody := "" }

/-- A host with no usable device-info endpoint whose landing page merely
mentions the Flask server: its identity is never compared, yet the
verification fallback accepts it. -/
def badHost : HostResp :=
  { acceptsTcp := true, infoCode := 404, infoBody := "",
    rootCode := 200, rootBody := "RFID Entry System Flask Server" }

/-- A host that does not answer the TCP probe at all. -/
def offHost : HostResp :=
  { acceptsTcp := false, infoCode := -1, infoBody := "", rootCode := -1, rootBody := "" }

/-- Network where every address hosts an impostor accepted by the fallback. -/
def hostsFallbackOnly : Nat → HostResp := fun _ => badHost

/-- Network of Scenario E: only candidate 130 is the (verified) server. -/
def hostsOnly130 : Nat → HostResp := fun i => if i == 130 then goodHost else offHost

/-! ## Helper lemmas -/

theorem usub_of_le (a b : Nat) (hba : b ≤ a) (ha : a < U32) : usub a b = a - b := by
  unfold usub
  have h1 : a + U32 - b = (a - b) + U32 := by omega
  rw [h1, Nat.add_mod_right]
  exact Nat.mod_eq_of_lt (by omega)

theorem usub_self (a : Nat) : usub a a = 0 := by
  unfold usub
  rw [Nat.add_sub_cancel_left, Nat.mod_self]

theorem openDoor_doorOpen (r : String) (now : Nat) (s : DoorState) :
    (openDoor r now s).doorOpen = true := by
  unfold openDoor; split_ifs <;> rfl

theorem openDoor_start (r : String) (now : Nat) (s : DoorState) :
    (openDoor r now s).doorOpenStartTime = now := by
  unfold openDoor; split_ifs <;> rfl

theorem openDoor_lastOperation (r : String) (now : Nat) (s : DoorState) :
    (openDoor r now s).lastOperation = r := by
  unfold openDoor; split_ifs <;> rfl

theorem openDoor_relayLow (r : String) (now : Nat) (s : DoorState) :
    (openDoor r now s).relayLow = true := by
  unfold openDoor; split_ifs <;> rfl

theorem openDoor_total (r : String) (now : Nat) (s : DoorState) :
    (openDoor r now s).totalOperations = s.totalOperations + 1 := by
  unfold openDoor; split_ifs <;> rfl

theorem openDoor_entryCount (r : String) (now : Nat) (s : DoorState) :
    (openDoor r now s).entryCount =
      (if r == "entry" then s.entryCount + 1 else s.entryCount) := by
  unfold openDoor; split_ifs <;> rfl

theorem openDoor_exitCount (r : String) (now : Nat) (s : DoorState) :
    (openDoor r now s).exitCount =
      (if r == "exit" then s.exitCount + 1 else s.exitCount) := by
  unfold openDoor
  split_ifs with h1 h2 h3 <;> first
  | rfl
  | (exfalso
     simp only [beq_iff_eq] at *
     simp_all)

theorem openDoor_manual (r : String) (now : Nat) (s : DoorState) :
    (openDoor r now s).manualOperations =
      (if r == "entry" || r == "exit" then s.manualOperations
       else s.manualOperations + 1) := by
  unfold openDoor
  split_ifs with h1 h2 h3 <;> simp_all

theorem updateDoorStatus_start (now : Nat) (s : DoorState) :
    (updateDoorStatus now s).doorOpenStartTime = s.doorOpenStartTime := by
  unfold updateDoorStatus; split_ifs <;> rfl

theorem updateDoorStatus_counters (now : Nat) (s : DoorState) :
    (updateDoorStatus now s).entryCount = s.entryCount ∧
    (updateDoorStatus now s).exitCount = s.exitCount ∧
    (updateDoorStatus now s).manualOperations = s.manualOperations ∧
    (updateDoorStatus now s).totalOperations = s.totalOperations := by
  unfold updateDoorStatus; split_ifs <;> exact ⟨rfl, rfl, rfl, rfl⟩

theorem updateDoorStatus_closed (now : Nat) (s : DoorState)
    (h : s.doorOpen = false) : updateDoorStatus now s = s := by
  unfold updateDoorStatus
  rw [h]
  simp

theorem foldl_unlocks_open (v : Nat) (cs : List DoorCmd) :
    ∀ s : DoorState, cs ≠ [] → (∀ c ∈ cs, c.isUnlockCmd = true) →
      (cs.foldl (handleCmd v) s).doorOpen = true ∧
      (cs.foldl (handleCmd v) s).doorOpenStartTime = v := by
  induction cs with
  | nil => intro s h _; exact absurd rfl h
  | cons c rest ih =>
    intro s _ hall
    have hc : c.isUnlockCmd = true := hall c (by simp)
    cases c with
    | lock => simp [DoorCmd.isUnlockCmd] at hc
    | unlock r =>
      cases rest with
      | nil =>
        simp only [List.foldl_cons, List.foldl_nil, handleCmd]
        exact ⟨openDoor_doorOpen r v s, openDoor_start r v s⟩
      | cons c2 rest2 =>
        have h2 := ih (handleCmd v s (.unlock r)) (by simp)
          (fun c hc => hall c (List.mem_cons_of_mem _ hc))
        simpa only [List.foldl_cons] using h2

theorem doorTick_inv (cs : List DoorCmd) (s : DoorState) (lu : Option Nat)
    (u v : Nat) (huv : u ≤ v) (hu : u < U32) (hv : v < U32)
    (hlu : ∀ t0, lu = some t0 → t0 ≤ u)
    (hcs : ∀ c ∈ cs, c.isUnlockCmd = true)
    (hinv : DoorInv s lu u) :
    DoorInv (doorTick s (v, cs)) (if cs.any DoorCmd.isUnlockCmd then some v else lu) v ∧
    (∀ t0, (if cs.any DoorCmd.isUnlockCmd then some v else lu) = some t0 → t0 ≤ v) := by
  by_cases hne : cs = []
  · subst hne
    simp only [List.any_nil, Bool.false_eq_true, if_false]
    refine ⟨?_, fun t0 ht0 => le_trans (hlu t0 ht0) huv⟩
    unfold doorTick
    simp only [List.foldl_nil]
    cases lu with
    | none =>
      have hopen : s.doorOpen = false := hinv
      unfold DoorInv
      rw [updateDoorStatus_closed v s hopen]
      exact hopen
    | some t0 =>
      obtain ⟨hst, hiff⟩ := hinv
      have ht0u : t0 ≤ u := hlu t0 rfl
      have hsubu : usub u t0 = u - t0 := usub_of_le u t0 ht0u hu
      have hsubv : usub v t0 = v - t0 := usub_of_le v t0 (le_trans ht0u huv) hv
      unfold DoorInv updateDoorStatus
      cases hdo : s.doorOpen with
      | false =>
        have hge : ¬ u - t0 < DOOR_OPEN_TIME := by
          intro hlt
          have := hiff.mpr (hsubu ▸ hlt)
          rw [hdo] at this
          exact Bool.false_ne_true this
        simp only [hdo, Bool.false_eq_true, if_false]
        refine ⟨hst, ?_⟩
        rw [hsubv]
        constructor
        · intro h; exact h.elim
        · intro h; exfalso; omega
      | true =>
        simp only [hdo, if_true, hst, hsubv]
        split_ifs with hclose
        · refine ⟨hst, ?_⟩
          simp only [closeDoor]
          constructor
          · intro h; exact absurd h Bool.false_ne_true
          · intro h; omega
        · refine ⟨hst, ?_⟩
          rw [hdo]
          simp only [eq_self_iff_true, true_iff]
          omega
  · have hany : cs.any DoorCmd.isUnlockCmd = true := by
      rcases cs with _ | ⟨c, rest⟩
      · exact absurd rfl hne
      · simp only [List.any_cons, Bool.or_eq_true]
        exact Or.inl (hcs c (by simp))
    simp only [hany, if_true]
    refine ⟨?_, fun t0 ht0 => by injection ht0 with h; omega⟩
    unfold doorTick
    obtain ⟨hopen, hstart⟩ := foldl_unlocks_open v cs s hne hcs
    unfold DoorInv updateDoorStatus
    rw [hopen, hstart, usub_self]
    simp only [if_true]
    have : ¬ (0 ≥ DOOR_OPEN_TIME) := by unfold DOOR_OPEN_TIME; omega
    rw [if_neg this]
    refine ⟨hstart, ?_⟩
    rw [hopen, usub_self]
    simp only [true_iff]
    unfold DOOR_OPEN_TIME
    omega

theorem door_run_inv (ts : List (Nat × List DoorCmd)) :
    ∀ (s : DoorState) (lu : Option Nat) (u : Nat),
      List.Chain (fun a b => a ≤ b) u (ts.map Prod.fst) →
      (∀ t ∈ ts, t.1 < U32) →
      u < U32 →
      (∀ t0, lu = some t0 → t0 ≤ u) →
      (∀ t ∈ ts, ∀ c ∈ t.2, DoorCmd.isUnlockCmd c = true) →
      DoorInv s lu u →
      DoorInv (ts.foldl doorTick s) (lastUnlockFrom lu ts) (endTimeFrom u ts) ∧
      endTimeFrom u ts < U32 ∧
      (∀ t0, lastUnlockFrom lu ts = some t0 → t0 ≤ endTimeFrom u ts) := by
  induction ts with
  | nil =>
    intro s lu u _ _ hu hlu _ hinv
    exact ⟨hinv, hu, hlu⟩
  | cons t rest ih =>
    intro s lu u hchain hbound hu hlu hall hinv
    obtain ⟨v, cs⟩ := t
    rw [List.map_cons, List.chain_cons] at hchain
    obtain ⟨huv, hchain'⟩ := hchain
    have hv : v < U32 := hbound (v, cs) (by simp)
    have hcs : ∀ c ∈ cs, DoorCmd.isUnlockCmd c = true :=
      fun c hc => hall (v, cs) (by simp) c hc
    obtain ⟨hinv', hlu'⟩ := doorTick_inv cs s lu u v huv hu hv hlu hcs hinv
    have hstep := ih (doorTick s (v, cs))
      (if cs.any DoorCmd.isUnlockCmd then some v else lu) v hchain'
      (fun t ht => hbound t (List.mem_cons_of_mem _ ht)) hv hlu'
      (fun t ht => hall t (List.mem_cons_of_mem _ ht)) hinv'
    exact hstep

theorem endTimeFrom_append (u : Nat) (l : List (Nat × List DoorCmd))
    (a : Nat × List DoorCmd) : endTimeFrom u (l ++ [a]) = a.1 := by
  unfold endTimeFrom
  rw [List.foldl_append]
  rfl

/-- Claim C3: in every reachable state of the door actuator, the relay pin
is driven LOW (unlock output asserted) exactly when the door state is Open;
in the sketch the relay and `doorOpen` are written only by `openDoor` and
`closeDoor`, which are the transitions generating `ReachableDoor`. -/
theorem C3_relay_iff_open (s : DoorState) (h : ReachableDoor s) :
    s.relayLow = true ↔ s.doorOpen = true := by
  induction h with
  | init => simp [initDoorState, closeDoor, bootState]
  | stepOpen r now _ ih =>
    rw [openDoor_relayLow, openDoor_doorOpen]
  | stepClose _ ih => simp [closeDoor]
  | stepTick now _ ih =>
    unfold updateDoorStatus
    split_ifs with h1 h2
    · simp [closeDoor]
    · exact ih
    · exact ih

/-- Claim C3 witness: the invariant at the concrete initial state. -/
theorem C3_relay_iff_open_witness :
    initDoorState.relayLow = true ↔ initDoorState.doorOpen = true :=
  C3_relay_iff_open initDoorState ReachableDoor.init

/-- Claim C2: over any unlock-only command trace the door is Open at a
control-loop tick exactly when less than `DOOR_OPEN_TIME` (5000 ms) has
elapsed since the tick carrying the most recent unlock command; with an
unlock at t=0 the door is Open at the 4999 ms tick and Closed from the
5000 ms tick on; and a lock command forces Closed at its tick regardless
of the running timer. -/
theorem C2_open_iff_timer :
    (∀ (ts : List (Nat × List DoorCmd)) (T : Nat) (cs : List DoorCmd),
      List.Chain (fun a b => a ≤ b) 0 ((ts ++ [(T, cs)]).map Prod.fst) →
      (∀ t ∈ ts ++ [(T, cs)], t.1 < U32) →
      (∀ t ∈ ts ++ [(T, cs)], ∀ c ∈ t.2, DoorCmd.isUnlockCmd c = true) →
      ((runDoor (ts ++ [(T, cs)])).doorOpen = true ↔
        ∃ t0, lastUnlockTime (ts ++ [(T, cs)]) = some t0 ∧ T - t0 < DOOR_OPEN_TIME)) ∧
    (runDoor [(0, [DoorCmd.unlock "entry"]), (4999, [])]).doorOpen = true ∧
    (runDoor [(0, [DoorCmd.unlock "entry"]), (4999, []), (5000, [])]).doorOpen = false ∧
    (∀ (ts : List (Nat × List DoorCmd)) (T : Nat) (cs : List DoorCmd),
      (runDoor (ts ++ [(T, cs ++ [DoorCmd.lock])])).doorOpen = false) := by
  refine ⟨?_, by decide, by decide, ?_⟩
  · intro ts T cs hchain hbound hall
    have hinv0 : DoorInv initDoorState none 0 := rfl
    have hU : (0 : Nat) < U32 := by unfold U32; omega
    obtain ⟨hinv, hTlt, hle⟩ :=
      door_run_inv (ts ++ [(T, cs)]) initDoorState none 0 hchain hbound hU
        (fun t0 h => by cases h) hall hinv0
    rw [endTimeFrom_append] at hinv hTlt hle
    unfold runDoor lastUnlockTime
    cases hcase : lastUnlockFrom none (ts ++ [(T, cs)]) with
    | none =>
      rw [hcase] at hinv
      unfold DoorInv at hinv
      rw [hinv]
      simp
    | some t0 =>
      rw [hcase] at hinv hle
      unfold DoorInv at hinv
      obtain ⟨hst, hiff⟩ := hinv
      have ht0 : t0 ≤ T := hle t0 rfl
      rw [usub_of_le T t0 ht0 hTlt] at hiff
      constructor
      · intro h; exact ⟨t0, rfl, hiff.mp h⟩
      · rintro ⟨t1, ht1, hlt⟩
        injection ht1 with h1
        subst h1
        exact hiff.mpr hlt
  · intro ts T cs
    unfold runDoor
    rw [List.foldl_append]
    simp only [List.foldl_cons, List.foldl_nil]
    unfold doorTick
    rw [List.foldl_append]
    simp only [List.foldl_cons, List.foldl_nil, handleCmd]
    rw [updateDoorStatus_closed _ _ rfl]
    rfl

/-- Claim C2 witness: the open-iff-timer equivalence instantiated on the
one-tick trace that unlocks at t = 0. -/
theorem C2_open_iff_timer_witness :
    (runDoor ([] ++ [(0, [DoorCmd.unlock "entry"])])).doorOpen = true ↔
      ∃ t0, lastUnlockTime ([] ++ [(0, [DoorCmd.unlock "entry"])]) = some t0 ∧
        0 - t0 < DOOR_OPEN_TIME :=
  C2_open_iff_timer.1 [] 0 [DoorCmd.unlock "entry"]
    (List.Chain.cons (by omega) List.Chain.nil) (by decide) (by decide)

/-- Claim C7: an unlock received while the door is already Open restarts the
open-duration timer from the new command's time and overwrites the recorded
reason (`openDoor` sets `doorOpenStartTime` and `lastOperation`
unconditionally, no queuing), and in Scenario D — unlock "entry" at t=0,
unlock "exit" at t=3000 — the door is still Open at t=7999, Closed at
t=8000, with last recorded reason "exit". -/
theorem C7_reopen_restarts_timer :
    (∀ (r : String) (now : Nat) (s : DoorState),
      (openDoor r now s).doorOpen = true ∧
      (openDoor r now s).doorOpenStartTime = now ∧
      (openDoor r now s).lastOperation = r) ∧
    ((runDoor [(0, [DoorCmd.unlock "entry"]), (3000, [DoorCmd.unlock "exit"]),
        (7999, [])]).doorOpen = true ∧
     (runDoor [(0, [DoorCmd.unlock "entry"]), (3000, [DoorCmd.unlock "exit"]),
        (7999, [])]).lastOperation = "exit") ∧
    ((runDoor [(0, [DoorCmd.unlock "entry"]), (3000, [DoorCmd.unlock "exit"]),
        (7999, []), (8000, [])]).doorOpen = false ∧
     (runDoor [(0, [DoorCmd.unlock "entry"]), (3000, [DoorCmd.unlock "exit"]),
        (7999, []), (8000, [])]).lastOperation = "exit") := by
  refine ⟨?_, by constructor <;> decide, by constructor <;> decide⟩
  intro r now s
  exact ⟨openDoor_doorOpen r now s, openDoor_start r now s,
    openDoor_lastOperation r now s⟩

/-- Claim C10: in every reachable actuator state the statistics satisfy
`totalOperations = entryCount + exitCount + manualOperations`; `openDoor`
increments `totalOperations` and exactly the counter matching its reason
("entry" / "exit" / anything else is manual), while `closeDoor` and the
auto-close check change no counter. -/
theorem C10_counter_invariant :
    (∀ s : DoorState, ReachableDoor s →
      s.totalOperations = s.entryCount + s.exitCount + s.manualOperations) ∧
    (∀ (r : String) (now : Nat) (s : DoorState),
      (openDoor r now s).totalOperations = s.totalOperations + 1 ∧
      (openDoor r now s).entryCount =
        (if r == "entry" then s.entryCount + 1 else s.entryCount) ∧
      (openDoor r now s).exitCount =
        (if r == "exit" then s.exitCount + 1 else s.exitCount) ∧
      (openDoor r now s).manualOperations =
        (if r == "entry" || r == "exit" then s.manualOperations
         else s.manualOperations + 1)) ∧
    (∀ s : DoorState,
      (closeDoor s).entryCount = s.entryCount ∧
      (closeDoor s).exitCount = s.exitCount ∧
      (closeDoor s).manualOperations = s.manualOperations ∧
      (closeDoor s).totalOperations = s.totalOperations) ∧
    (∀ (now : Nat) (s : DoorState),
      (updateDoorStatus now s).entryCount = s.entryCount ∧
      (updateDoorStatus now s).exitCount = s.exitCount ∧
      (updateDoorStatus now s).manualOperations = s.manualOperations ∧
      (updateDoorStatus now s).totalOperations = s.totalOperations) := by
  refine ⟨?_, ?_, fun s => ⟨rfl, rfl, rfl, rfl⟩, fun now s => updateDoorStatus_counters now s⟩
  case refine_2 =>
    intro r now s
    exact ⟨openDoor_total r now s, openDoor_entryCount r now s,
      openDoor_exitCount r now s, openDoor_manual r now s⟩
  · intro s h
    induction h with
    | init => rfl
    | stepOpen r now _ ih =>
      rw [openDoor_total, openDoor_entryCount, openDoor_exitCount, openDoor_manual]
      by_cases h1 : r == "entry"
      · have h2 : (r == "exit") = false := by
          simp only [beq_iff_eq] at h1 ⊢
          simp [h1]
        rw [if_pos h1, h2, if_neg (by simp), h1]
        simp only [Bool.true_or, if_true]
        omega
      · rw [if_neg (by simp_all)]
        by_cases h2 : r == "exit"
        · rw [if_pos h2, h2]
          simp only [Bool.or_true, if_true]
          omega
        · rw [if_neg (by simp_all)]
          have : (r == "entry" || r == "exit") = false := by
            simp only [Bool.or_eq_false_iff]
            exact ⟨by simp_all, by simp_all⟩
          rw [this]
          simp only [Bool.false_eq_true, if_false]
          omega
    | stepClose _ ih => exact ih
    | stepTick now _ ih =>
      obtain ⟨h1, h2, h3, h4⟩ := updateDoorStatus_counters now _
      rw [h1, h2, h3, h4]
      exact ih

/-- Claim C10 witness: the counter invariant at the initial state, an
`openDoor` with reason "entry" and a `closeDoor` on a concrete state. -/
theorem C10_counter_invariant_witness :
    initDoorState.totalOperations =
      initDoorState.entryCount + initDoorState.exitCount +
        initDoorState.manualOperations :=
  C10_counter_invariant.1 initDoorState ReachableDoor.init

theorem chain_le_of_le {a b : Nat} {l : List Nat} (hab : a ≤ b)
    (h : List.Chain (fun x y => x ≤ y) b l) :
    List.Chain (fun x y => x ≤ y) a l := by
  cases l with
  | nil => exact List.Chain.nil
  | cons c rest =>
    rw [List.chain_cons] at h ⊢
    exact ⟨le_trans hab h.1, h.2⟩

theorem processRead_cases (s : ReaderState) (raw : String) (now : Nat) :
    (processRead s raw now = (s, false) ∧
      ((strTrim raw).length = 0 ∨ usub now s.lastScanTime < SCAN_DELAY ∨
        (strTrim raw = s.lastRFID ∧ usub now s.lastScanTime < SAME_CARD_WINDOW))) ∨
    (processRead s raw now =
        ({ lastRFID := strTrim raw, lastScanTime := now }, true) ∧
      ¬ usub now s.lastScanTime < SCAN_DELAY ∧
      (strTrim raw = s.lastRFID → ¬ usub now s.lastScanTime < SAME_CARD_WINDOW)) := by
  simp only [processRead]
  split_ifs with h1 h2 h3
  · exact Or.inl ⟨rfl, Or.inr (Or.inl h2)⟩
  · rw [Bool.and_eq_true, beq_iff_eq, decide_eq_true_eq] at h3
    exact Or.inl ⟨rfl, Or.inr (Or.inr h3)⟩
  · refine Or.inr ⟨rfl, h2, fun heq hlt => ?_⟩
    rw [Bool.and_eq_true, beq_iff_eq, decide_eq_true_eq] at h3
    exact h3 ⟨heq, hlt⟩
  · exact Or.inl ⟨rfl, Or.inl (by omega)⟩

theorem reader_run_inv (reads : List (String × Nat)) :
    ∀ (s : ReaderState) (evs : List (String × Nat)),
      List.Chain (fun a b => a ≤ b) s.lastScanTime (reads.map Prod.snd) →
      (∀ r ∈ reads, r.2 < U32) →
      s.lastScanTime < U32 →
      ReaderInv s evs →
      List.Chain' evRel evs →
      ReaderInv (reads.foldl readerStep (s, evs)).1
          (reads.foldl readerStep (s, evs)).2 ∧
        List.Chain' evRel (reads.foldl readerStep (s, evs)).2 := by
  induction reads with
  | nil => intro s evs _ _ _ hinv hch; exact ⟨hinv, hch⟩
  | cons r rest ih =>
    intro s evs hchain hbound hsU hinv hch
    obtain ⟨raw, now⟩ := r
    rw [List.map_cons, List.chain_cons] at hchain
    obtain ⟨hle_now, hchain'⟩ := hchain
    have hnowU : now < U32 := hbound (raw, now) (by simp)
    have hboundR : ∀ r ∈ rest, r.2 < U32 :=
      fun r hr => hbound r (List.mem_cons_of_mem _ hr)
    rcases processRead_cases s raw now with ⟨heq, _⟩ | ⟨heq, hga, hsc⟩
    · have hstep : readerStep (s, evs) (raw, now) = (s, evs) := by
        simp [readerStep, heq]
      rw [List.foldl_cons, hstep]
      exact ih s evs (chain_le_of_le hle_now hchain') hboundR hsU hinv hch
    · have hstep : readerStep (s, evs) (raw, now) =
          ({ lastRFID := strTrim raw, lastScanTime := now },
            evs ++ [(strTrim raw, now)]) := by
        simp [readerStep, heq]
      rw [List.foldl_cons, hstep]
      have hgap : SCAN_DELAY ≤ now - s.lastScanTime := by
        rw [usub_of_le now s.lastScanTime hle_now hnowU] at hga
        omega
      have hch2 : List.Chain' evRel (evs ++ [(strTrim raw, now)]) := by
        rw [List.chain'_append]
        refine ⟨hch, List.chain'_singleton _, ?_⟩
        intro x hx y hy
        simp only [List.head?_cons, Option.mem_def, Option.some.injEq] at hy
        subst hy
        unfold ReaderInv at hinv
        rw [Option.mem_def] at hx
        rw [hx] at hinv
        obtain ⟨hid, htime⟩ := hinv
        constructor
        · rw [← htime]; exact hgap
        · intro hsame
          have hsame2 : x.1 = strTrim raw := hsame
          have heq2 : strTrim raw = s.lastRFID := (hid.trans hsame2).symm
          have := hsc heq2
          rw [usub_of_le now s.lastScanTime hle_now hnowU] at this
          rw [← htime]
          omega
      have hinv2 : ReaderInv { lastRFID := strTrim raw, lastScanTime := now }
          (evs ++ [(strTrim raw, now)]) := by
        unfold ReaderInv
        rw [List.getLast?_concat]
        exact ⟨rfl, rfl⟩
      exact ih _ _ hchain' hboundR hnowU hinv2 hch2

/-- Claim C5 counterexample: the reads of credential "C1" at t=2000 and
t=6000 differ by 4000 ms — within the 5000 ms per-credential window — yet
both are accepted (each produces a submission), because a scan of a
different card "D2" at t=4000 overwrote `lastRFID` and `lastScanTime`. -/
theorem C5_same_card_counterexample :
    (runReader [("C1", 2000), ("D2", 4000), ("C1", 6000)]).2 =
      [("C1", 2000), ("D2", 4000), ("C1", 6000)] ∧
    6000 - 2000 < SAME_CARD_WINDOW := by
  constructor
  · decide
  · decide

/-- Claim C5 (amended): a read of the same credential as the most recently
accepted scan is suppressed for 5000 ms after it; hence consecutive
emitted scan events that carry the same credential are at least
`SAME_CARD_WINDOW` apart.  (The window is measured from the last accepted
scan of any card, so an intervening accepted scan of a different card
resets it — see the counterexample.) -/
theorem C5_per_credential_window (reads : List (String × Nat))
    (hchain : List.Chain (fun a b => a ≤ b) 0 (reads.map Prod.snd))
    (hbound : ∀ r ∈ reads, r.2 < U32) :
    List.Chain' (fun a b => a.1 = b.1 → SAME_CARD_WINDOW ≤ b.2 - a.2)
      ((runReader reads).2) := by
  have h := reader_run_inv reads initReaderState [] hchain hbound
    (by decide) rfl List.chain'_nil
  exact List.Chain'.imp (fun a b hr => hr.2) h.2

/-- Claim C5 witness: the amended window property on a concrete
two-read trace of the same card 7000 ms apart. -/
theorem C5_per_credential_window_witness :
    List.Chain' (fun a b => a.1 = b.1 → SAME_CARD_WINDOW ≤ b.2 - a.2)
      ((runReader [("A1B2C3D4", 2000), ("A1B2C3D4", 9000)]).2) :=
  C5_per_credential_window [("A1B2C3D4", 2000), ("A1B2C3D4", 9000)]
    (List.Chain.cons (by omega) (List.Chain.cons (by omega) List.Chain.nil))
    (by decide)

/-- Claim C6: a read arriving within `SCAN_DELAY` (2000 ms) of the last
accepted scan is suppressed (state unchanged, no event) whatever its
credential; consequently consecutive emitted events are at least 2000 ms
apart; Scenario B — two scans of "A1B2C3D4" one second apart — yields only
the first event, and so does a different card one second after an accepted
scan. -/
theorem C6_global_window :
    (∀ (s : ReaderState) (raw : String) (now : Nat),
      s.lastScanTime ≤ now → now < U32 → now - s.lastScanTime < SCAN_DELAY →
      processRead s raw now = (s, false)) ∧
    (∀ reads : List (String × Nat),
      List.Chain (fun a b => a ≤ b) 0 (reads.map Prod.snd) →
      (∀ r ∈ reads, r.2 < U32) →
      List.Chain' (fun a b => SCAN_DELAY ≤ b.2 - a.2) ((runReader reads).2)) ∧
    (runReader [("A1B2C3D4", 2000), ("A1B2C3D4", 3000)]).2 =
      [("A1B2C3D4", 2000)] ∧
    (runReader [("A1B2C3D4", 2000), ("FFFF0001", 3000)]).2 =
      [("A1B2C3D4", 2000)] := by
  refine ⟨?_, ?_, by decide, by decide⟩
  · intro s raw now hle hlt hgap
    simp only [processRead]
    rw [usub_of_le now s.lastScanTime hle hlt]
    split_ifs <;> rfl
  · intro reads hchain hbound
    have h := reader_run_inv reads initReaderState [] hchain hbound
      (by decide) rfl List.chain'_nil
    exact List.Chain'.imp (fun a b hr => hr.1) h.2

/-- Claim C6 witness: a read 1000 ms after boot (within the global window of
`lastScanTime = 0`) is suppressed. -/
theorem C6_global_window_witness :
    processRead initReaderState "A1B2C3D4" 1000 = (initReaderState, false) :=
  C6_global_window.1 initReaderState "A1B2C3D4" 1000 (by decide) (by decide)
    (by decide)

theorem byteToHexChars_length_pos (b : Nat) : 0 < (byteToHexChars b).length := by
  unfold byteToHexChars
  split_ifs <;> simp

theorem hexDigitChar_upper :
    ∀ k, k < 16 → isUpperHexDigit (Char.toUpper (hexDigitChar k)) = true := by
  decide

/-- Claim C9 counterexample: the serial-reader entry scanner accepts the
raw line "a1b2c3d4" past debounce and submits it as-is — the credential it
carries is not an uppercase-normalized hex string (`toUpperCase` is never
applied in `esp8266_entry_oled.ino` / `esp32_exit_oled.ino`). -/
theorem C9_serial_no_normalization :
    (runReader [("a1b2c3d4", 2000)]).2 = [("a1b2c3d4", 2000)] ∧
    ("a1b2c3d4".data.all isUpperHexDigit) = false := by
  constructor
  · decide
  · decide

/-- Claim C9 (amended): only the MFRC522 variant
(`esp8266_rfid_entry.ino`) normalizes: its credential — the UID bytes
rendered in unpadded hex and uppercased — is a non-empty string of
uppercase hexadecimal digits with no separators; the serial-reader
variants forward the trimmed raw line without case normalization. -/
theorem C9_mfrc522_uppercase_hex (bytes : List Nat) (hne : bytes ≠ [])
    (hbound : ∀ b ∈ bytes, b < 256) :
    (scannedUID bytes).length > 0 ∧
      ∀ c ∈ (scannedUID bytes).data, isUpperHexDigit c = true := by
  constructor
  · rcases bytes with _ | ⟨b, rest⟩
    · exact absurd rfl hne
    · have hdata : (scannedUID (b :: rest)).data =
          (byteToHexChars b ++ (List.map byteToHexChars rest).flatten).map
            Char.toUpper := rfl
      have hlen : (scannedUID (b :: rest)).length =
          (scannedUID (b :: rest)).data.length := rfl
      rw [hlen, hdata, List.length_map, List.length_append]
      have := byteToHexChars_length_pos b
      omega
  · intro c hc
    have hdata : (scannedUID bytes).data =
        ((bytes.map byteToHexChars).flatten).map Char.toUpper := rfl
    rw [hdata, List.mem_map] at hc
    obtain ⟨c0, hc0, rfl⟩ := hc
    rw [List.mem_flatten] at hc0
    obtain ⟨l, hl, hc0l⟩ := hc0
    rw [List.mem_map] at hl
    obtain ⟨b, hb, rfl⟩ := hl
    have hb256 : b < 256 := hbound b hb
    unfold byteToHexChars at hc0l
    split_ifs at hc0l with h16
    · rw [List.mem_singleton] at hc0l
      subst hc0l
      exact hexDigitChar_upper b h16
    · rw [List.mem_cons, List.mem_singleton] at hc0l
      rcases hc0l with rfl | rfl
      · exact hexDigitChar_upper (b / 16) (by omega)
      · exact hexDigitChar_upper (b % 16) (Nat.mod_lt b (by omega))

/-- Claim C9 witness: the normalized credential of the concrete UID
A3 0B C2 D4 ("A3BC2D4") is non-empty uppercase hex. -/
theorem C9_mfrc522_uppercase_hex_witness :
    (scannedUID [163, 11, 194, 212]).length > 0 ∧
      ∀ c ∈ (scannedUID [163, 11, 194, 212]).data, isUpperHexDigit c = true :=
  C9_mfrc522_uppercase_hex [163, 11, 194, 212] (by decide) (by decide)

/-- Claim C4: when the single POST of `sendRFIDToPython` fails (the HTTP
client returns a code ≤ 0 for a connection failure or timeout), the held
location flag `piFound` is cleared, returning the node to the searching
state; the function performs at most one request per scan event (no
retry, the event is dropped); with no held location it changes nothing
and sends nothing (invalidation is idempotent); and the loop's discovery
gate re-runs discovery only while the location is not held. -/
theorem C4_unreachable_invalidates :
    (∀ (st : SubmitterState) (uid : String) (r : Int),
      st.piFound = true → st.pythonServerIP.length ≠ 0 → r ≤ 0 →
      (sendRFIDToPython st uid r).1.piFound = false ∧
      (sendRFIDToPython st uid r).2 = 1) ∧
    (∀ (st : SubmitterState) (uid : String) (r : Int),
      (sendRFIDToPython st uid r).2 ≤ 1) ∧
    (∀ (st : SubmitterState) (uid : String) (r : Int),
      st.piFound = false → sendRFIDToPython st uid r = (st, 0)) ∧
    (∀ now lastAttempt : Nat,
      shouldRediscover true now lastAttempt = false ∧
      (usub now lastAttempt > 30000 →
        shouldRediscover false now lastAttempt = true)) := by
  refine ⟨?_, ?_, ?_, ?_⟩
  · intro st uid r h1 h2 h3
    have hnotpos : ¬ r > 0 := by omega
    simp [sendRFIDToPython, h1, h2, hnotpos]
  · intro st uid r
    unfold sendRFIDToPython
    split_ifs <;> simp
  · intro st uid r h
    simp [sendRFIDToPython, h]
  · intro now lastAttempt
    constructor
    · simp [shouldRediscover]
    · intro hgt
      simp [shouldRediscover, hgt]

/-- Claim C4 witness: a held location plus a failed POST (code -1) on a
concrete state. -/
theorem C4_unreachable_invalidates_witness :
    (sendRFIDToPython ⟨true, "192.168.1.50"⟩ "A1B2C3D4" (-1)).1.piFound = false ∧
    (sendRFIDToPython ⟨true, "192.168.1.50"⟩ "A1B2C3D4" (-1)).2 = 1 :=
  C4_unreachable_invalidates.1 ⟨true, "192.168.1.50"⟩ "A1B2C3D4" (-1) rfl
    (by decide) (by decide)

theorem verify_implies (h : HostResp) (hv : verifyPiIdentity h = true) :
    verifiedIdentityMatches h = true ∨ verifyFallback h = true := by
  unfold verifyPiIdentity at hv
  by_cases h200 : (h.infoCode == 200) = true
  · rw [if_pos h200] at hv
    cases hmac : extractDeviceMAC h.infoBody with
    | none => rw [hmac] at hv; exact Or.inr hv
    | some m =>
      rw [hmac] at hv
      left
      unfold verifiedIdentityMatches
      rw [Bool.and_eq_true, hmac]
      exact ⟨h200, hv⟩
  · rw [if_neg h200] at hv
    exact Or.inr hv

theorem discoverFrom_spec (hosts : Nat → HostResp) (own : Nat) :
    ∀ (fuel i a : Nat),
      (discoverFrom hosts own i fuel).1 = some a →
      (testPythonServer (hosts a) && verifyPiIdentity (hosts a)) = true ∧
      a ≠ own ∧ i ≤ a ∧
      (∀ j, i ≤ j → j < a → j ≠ own →
        (testPythonServer (hosts j) && verifyPiIdentity (hosts j)) = false) ∧
      (∀ p ∈ (discoverFrom hosts own i fuel).2, p ≤ a) := by
  intro fuel
  induction fuel with
  | zero =>
    intro i a h
    simp [discoverFrom] at h
  | succ fuel ih =>
    intro i a h
    by_cases hown : (i == own) = true
    · have hio : i = own := by simpa using hown
      simp only [discoverFrom, if_pos hown] at h ⊢
      obtain ⟨hgood, hne, hle, hmin, hprobe⟩ := ih (i + 1) a h
      refine ⟨hgood, hne, by omega, ?_, hprobe⟩
      intro j hij hja hjo
      rcases Nat.lt_or_ge i j with hlt | hge
      · exact hmin j (by omega) hja hjo
      · exfalso; exact hjo (by omega)
    · by_cases hfound :
          (testPythonServer (hosts i) && verifyPiIdentity (hosts i)) = true
      · simp only [discoverFrom, if_neg hown, if_pos hfound] at h ⊢
        have hai : i = a := by simpa using h
        subst hai
        have hineq : i ≠ own := fun hio => hown (by simp [hio])
        refine ⟨hfound, hineq, le_refl i, ?_, ?_⟩
        · intro j hij hji _; omega
        · intro p hp
          simp only [List.mem_singleton] at hp
          omega
      · simp only [discoverFrom, if_neg hown, if_neg hfound] at h ⊢
        obtain ⟨hgood, hne, hle, hmin, hprobe⟩ := ih (i + 1) a h
        refine ⟨hgood, hne, by omega, ?_, ?_⟩
        · intro j hij hja hjo
          rcases Nat.eq_or_lt_of_le hij with rfl | hlt
          · exact eq_false_of_ne_true hfound
          · exact hmin j (by omega) hja hjo
        · intro p hp
          rcases List.mem_cons.mp hp with rfl | hp2
          · omega
          · exact hprobe p hp2

/-- Claim C1 counterexample: on a network where every candidate accepts the
TCP probe, answers 404 on the device-info endpoint and serves a landing
page mentioning "RFID Entry System"/"Flask Server", the exit-scanner
locator returns candidate 1 even though no reported identity was ever
compared to the configured one (`verifiedIdentityMatches` is false there:
the content fallback accepted it), and the entry-scanner locator returns
it on the TCP probe alone. -/
theorem C1_discovery_counterexample :
    (discoverPiByMAC hostsFallbackOnly 100).1 = some 1 ∧
    verifiedIdentityMatches (hostsFallbackOnly 1) = false ∧
    discoverPiByMACEntry hostsFallbackOnly 100 = some 1 := by
  refine ⟨by decide, by decide, by decide⟩

/-- Claim C1 (amended): when the exit-scanner locator returns an address,
the host there passed the TCP probe and `verifyPiIdentity` — that is,
either its device-info response reported a MAC equal case-insensitively to
the configured `raspberryPiMAC`, or it merely passed the content fallback,
which compares no identity; the entry-scanner locator performs no identity
verification at all. -/
theorem C1_discovery_identity (hosts : Nat → HostResp) (own a : Nat)
    (h : (discoverPiByMAC hosts own).1 = some a) :
    testPythonServer (hosts a) = true ∧
    (verifiedIdentityMatches (hosts a) = true ∨
      verifyFallback (hosts a) = true) := by
  obtain ⟨hgood, _, _, _, _⟩ := discoverFrom_spec hosts own 254 1 a h
  rw [Bool.and_eq_true] at hgood
  exact ⟨hgood.1, verify_implies _ hgood.2⟩

/-- Claim C1 witness: the amended statement at the network whose only
verified server is candidate 130. -/
theorem C1_discovery_identity_witness :
    testPythonServer (hostsOnly130 130) = true ∧
    (verifiedIdentityMatches (hostsOnly130 130) = true ∨
      verifyFallback (hostsOnly130 130) = true) :=
  C1_discovery_identity hostsOnly130 7 130 (by decide)

set_option maxRecDepth 40000 in
/-- Claim C8: the exit-scanner locator scans candidates in ascending order
1..254, skips its own address, and any returned address passed the probe
and verification while every smaller non-own candidate failed; on
Scenario E's network (only candidate 130 verifies) it returns 130, probes
no candidate beyond 130, and never probes its own address. -/
theorem C8_first_match :
    (∀ (hosts : Nat → HostResp) (own a : Nat),
      (discoverPiByMAC hosts own).1 = some a →
      (testPythonServer (hosts a) && verifyPiIdentity (hosts a)) = true ∧
      a ≠ own ∧
      (∀ j, 1 ≤ j → j < a → j ≠ own →
        (testPythonServer (hosts j) && verifyPiIdentity (hosts j)) = false) ∧
      (∀ p ∈ (discoverPiByMAC hosts own).2, p ≤ a)) ∧
    (discoverPiByMAC hostsOnly130 7).1 = some 130 ∧
    (∀ p ∈ (discoverPiByMAC hostsOnly130 7).2, p ≤ 130) ∧
    ((discoverPiByMAC hostsOnly130 7).2.contains 7) = false := by
  refine ⟨?_, by decide, by decide, by decide⟩
  intro hosts own a h
  obtain ⟨hgood, hne, _, hmin, hprobe⟩ := discoverFrom_spec hosts own 254 1 a h
  exact ⟨hgood, hne, hmin, hprobe⟩

set_option maxRecDepth 40000 in
/-- Claim C8 witness: the first-match property instantiated on the
Scenario E network. -/
theorem C8_first_match_witness :
    (testPythonServer (hostsOnly130 130) &&
      verifyPiIdentity (hostsOnly130 130)) = true ∧
    130 ≠ 7 ∧
    (∀ j, 1 ≤ j → j < 130 → j ≠ 7 →
      (testPythonServer (hostsOnly130 j) &&
        verifyPiIdentity (hostsOnly130 j)) = false) ∧
    (∀ p ∈ (discoverPiByMAC hostsOnly130 7).2, p ≤ 130) :=
  C8_first_match.1 hostsOnly130 7 130 (by decide)
